import Mathlib

namespace Kconfig

/-- Modelled from the spec: the engine source file kconfiglib.py is not among the
sources (only its testsuite is), so the tri-state value model of section 3 is
reconstructed here: a total order No < Module < Yes. -/
inductive Tri
  | no
  | mod
  | yes
  deriving DecidableEq, Repr

/-- Numeric rank of a tri-state value, giving the total order No < Module < Yes. -/
def Tri.toNat : Tri → Nat
  | .no => 0
  | .mod => 1
  | .yes => 2

/-- AND on tri-states is minimum (spec section 4.1). -/
def triAnd (a b : Tri) : Tri := if a.toNat ≤ b.toNat then a else b

/-- OR on tri-states is maximum (spec section 4.1). -/
def triOr (a b : Tri) : Tri := if a.toNat ≤ b.toNat then b else a

/-- NOT on tri-states: NOT(Yes)=No, NOT(No)=Yes, NOT(Module)=No (spec section 4.1). -/
def triNot : Tri → Tri
  | .yes => .no
  | .no => .yes
  | .mod => .no

/-- Modelled from the spec: promotion (section 4.3) - when the designated
modules-enabled symbol evaluates to No, a Module result is promoted to Yes. -/
def promote (modules : Bool) (t : Tri) : Tri :=
  if modules = false ∧ t = .mod then .yes else t

/-- Value of a decimal digit character. -/
def decDigitVal (c : Char) : Option Nat :=
  if c.isDigit then some (c.toNat - 48) else none

/-- Value of a hexadecimal digit character. -/
def hexDigitVal (c : Char) : Option Nat :=
  if c.isDigit then some (c.toNat - 48)
  else if 'a' ≤ c ∧ c ≤ 'f' then some (c.toNat - 87)
  else if 'A' ≤ c ∧ c ≤ 'F' then some (c.toNat - 55)
  else none

/-- Accumulate digit values in the given base; fails on the first non-digit. -/
def digitsValAux (base : Nat) (dv : Char → Option Nat) (acc : Nat) : List Char → Option Nat
  | [] => some acc
  | c :: cs =>
    match dv c with
    | some d => digitsValAux base dv (base * acc + d) cs
    | none => none

/-- Value of a non-empty digit string in the given base. -/
def digitsVal (base : Nat) (dv : Char → Option Nat) : List Char → Option Nat
  | [] => none
  | cs => digitsValAux base dv 0 cs

/-- Parse a decimal integer literal, with an optional leading minus sign. -/
def parseDec (s : String) : Option Int :=
  match s.data with
  | '-' :: cs => (digitsVal 10 decDigitVal cs).map (fun n => -(n : Int))
  | cs => (digitsVal 10 decDigitVal cs).map (fun n => (n : Int))

/-- Drop a leading 0x or 0X marker, if present. -/
def stripHexMarker : List Char → List Char
  | '0' :: 'x' :: cs => cs
  | '0' :: 'X' :: cs => cs
  | cs => cs

/-- Parse a hexadecimal literal; the 0x/0X marker is optional (spec section 4.1). -/
def parseHex (s : String) : Option Int :=
  (digitsVal 16 hexDigitVal (stripHexMarker s.data)).map (fun n => (n : Int))

/-- Whether a literal carries an explicit 0x/0X hexadecimal marker. -/
def hasHexMarker (s : String) : Bool :=
  match s.data with
  | '0' :: 'x' :: _ => true
  | '0' :: 'X' :: _ => true
  | _ => false

/-- Tokens of the expression language (spec section 4.2). -/
inductive Token
  | lparen
  | rparen
  | opAnd
  | opOr
  | opNot
  | opEq
  | opNe
  | opLt
  | opLe
  | opGt
  | opGe
  | word (s : String)
  | str (s : String)
  deriving DecidableEq, Repr

/-- Modelled from the spec: quoted-string lexing (section 4.2) from kconfiglib.py,
which is not among the sources. Reads the body of a quote opened with the quote
character q: a backslash escapes the following character (in particular a backslash
or the closing quote), the opposite quote character passes through unescaped, the
unescaped character q closes the token. Reaching the end of input before the
closing quote (including after a trailing backslash with nothing to escape) is a
syntax error. Returns the token text and the remaining input. -/
def readQuoted (q : Char) : List Char → Except String (List Char × List Char)
  | [] => .error "unterminated string"
  | c :: cs =>
    if c = q then .ok ([], cs)
    else if c = '\\' then
      match cs with
      | [] => .error "trailing backslash"
      | e :: cs2 => (readQuoted q cs2).map (fun p => (e :: p.1, p.2))
    else (readQuoted q cs).map (fun p => (c :: p.1, p.2))

/-- Characters that may appear in a bare word (symbol name or unquoted literal). -/
def isWordChar (c : Char) : Bool :=
  !(c = ' ' ∨ c = '\t' ∨ c = '\n' ∨ c = '(' ∨ c = ')' ∨ c = '!' ∨ c = '=' ∨
    c = '<' ∨ c = '>' ∨ c = '&' ∨ c = '|' ∨ c = '"' ∨ c = '\'')

/-- Modelled from the spec: the expression tokenizer (section 4.2) of kconfiglib.py,
which is not among the sources. Splits on whitespace, parentheses, the boolean
connectives, the six comparison operators, bare words and quoted strings. -/
def tokenizeAux : Nat → List Char → Except String (List Token)
  | 0, _ => .error "tokenizer fuel exhausted"
  | _ + 1, [] => .ok []
  | fuel + 1, c :: cs =>
    if c = ' ' ∨ c = '\t' ∨ c = '\n' then tokenizeAux fuel cs
    else if c = '(' then (tokenizeAux fuel cs).map (Token.lparen :: ·)
    else if c = ')' then (tokenizeAux fuel cs).map (Token.rparen :: ·)
    else if c = '&' then
      match cs with
      | '&' :: cs2 => (tokenizeAux fuel cs2).map (Token.opAnd :: ·)
      | _ => .error "lone ampersand"
    else if c = '|' then
      match cs with
      | '|' :: cs2 => (tokenizeAux fuel cs2).map (Token.opOr :: ·)
      | _ => .error "lone pipe"
    else if c = '!' then
      match cs with
      | '=' :: cs2 => (tokenizeAux fuel cs2).map (Token.opNe :: ·)
      | _ => (tokenizeAux fuel cs).map (Token.opNot :: ·)
    else if c = '=' then (tokenizeAux fuel cs).map (Token.opEq :: ·)
    else if c = '<' then
      match cs with
      | '=' :: cs2 => (tokenizeAux fuel cs2).map (Token.opLe :: ·)
      | _ => (tokenizeAux fuel cs).map (Token.opLt :: ·)
    else if c = '>' then
      match cs with
      | '=' :: cs2 => (tokenizeAux fuel cs2).map (Token.opGe :: ·)
      | _ => (tokenizeAux fuel cs).map (Token.opGt :: ·)
    else if c = '"' ∨ c = '\'' then
      match readQuoted c cs with
      | .error e => .error e
      | .ok (content, rest) => (tokenizeAux fuel rest).map (Token.str ⟨content⟩ :: ·)
    else if isWordChar c then
      match (c :: cs).span isWordChar with
      | (w, rest) => (tokenizeAux fuel rest).map (Token.word ⟨w⟩ :: ·)
    else .error "unexpected character"

/-- Tokenize an expression string. -/
def tokenize (s : String) : Except String (List Token) :=
  tokenizeAux (s.data.length + 1) s.data

/-- An atom of a comparison: a bare word or a quoted string literal. -/
inductive Atom
  | word (s : String)
  | qstr (s : String)
  deriving DecidableEq, Repr

/-- The six comparison operators. -/
inductive CmpOp
  | ceq
  | cne
  | clt
  | cle
  | cgt
  | cge
  deriving DecidableEq, Repr

/-- Whether the operator is one of the four relational (ordering) operators. -/
def CmpOp.isRel : CmpOp → Bool
  | .clt => true
  | .cle => true
  | .cgt => true
  | .cge => true
  | _ => false

/-- Expression trees (spec section 4.2). -/
inductive Expr
  | atom (a : Atom)
  | cmp (op : CmpOp) (a b : Atom)
  | not (e : Expr)
  | and (l r : Expr)
  | or (l r : Expr)
  deriving DecidableEq, Repr

/-- The atom denoted by a token, if any. -/
def tokenAtom? : Token → Option Atom
  | .word w => some (.word w)
  | .str s => some (.qstr s)
  | _ => none

/-- The comparison operator denoted by a token, if any. -/
def tokenRel? : Token → Option CmpOp
  | .opEq => some .ceq
  | .opNe => some .cne
  | .opLt => some .clt
  | .opLe => some .cle
  | .opGt => some .cgt
  | .opGe => some .cge
  | _ => none

mutual

/-- Modelled from the spec: recursive-descent parsing (section 4.2), lowest
precedence level: disjunction. -/
def parseOr : Nat → List Token → Except String (Expr × List Token)
  | 0, _ => .error "parser fuel exhausted"
  | fuel + 1, ts => do
    let (l, ts1) ← parseAnd fuel ts
    match ts1 with
    | .opOr :: ts2 =>
      let (r, ts3) ← parseOr fuel ts2
      pure (.or l r, ts3)
    | _ => pure (l, ts1)

/-- Conjunction level of the recursive-descent grammar. -/
def parseAnd : Nat → List Token → Except String (Expr × List Token)
  | 0, _ => .error "parser fuel exhausted"
  | fuel + 1, ts => do
    let (l, ts1) ← parseNotE fuel ts
    match ts1 with
    | .opAnd :: ts2 =>
      let (r, ts3) ← parseAnd fuel ts2
      pure (.and l r, ts3)
    | _ => pure (l, ts1)

/-- Negation level of the recursive-descent grammar. -/
def parseNotE : Nat → List Token → Except String (Expr × List Token)
  | 0, _ => .error "parser fuel exhausted"
  | fuel + 1, .opNot :: ts => do
    let (e, ts1) ← parseNotE fuel ts
    pure (.not e, ts1)
  | fuel + 1, ts => parsePrim fuel ts

/-- Primary level: parenthesized sub-expression, or an atom optionally followed by
a comparison operator and a second atom. Malformed input is a syntax error. -/
def parsePrim : Nat → List Token → Except String (Expr × List Token)
  | 0, _ => .error "parser fuel exhausted"
  | fuel + 1, .lparen :: ts => do
    let (e, ts1) ← parseOr fuel ts
    match ts1 with
    | .rparen :: ts2 => pure (e, ts2)
    | _ => .error "expected closing paren"
  | _ + 1, t :: ts =>
    match tokenAtom? t with
    | some a =>
      match ts with
      | t2 :: ts2 =>
        match tokenRel? t2 with
        | some op =>
          match ts2 with
          | t3 :: ts3 =>
            match tokenAtom? t3 with
            | some b => .ok (.cmp op a b, ts3)
            | none => .error "expected operand after relation"
          | [] => .error "expected operand after relation"
        | none => .ok (.atom a, ts)
      | [] => .ok (.atom a, [])
    | none => .error "unexpected token"
  | _ + 1, [] => .error "unexpected end of expression"

end

/-- Parse a whole token list as one expression; trailing tokens are a syntax error. -/
def parseTop (ts : List Token) : Except String Expr :=
  match parseOr (4 * ts.length + 4) ts with
  | .error e => .error e
  | .ok (e, []) => .ok e
  | .ok (_, _ :: _) => .error "trailing tokens"

/-- Symbol types (spec section 3). -/
inductive SType
  | bool
  | tristate
  | str
  | int
  | hex
  deriving DecidableEq, Repr

/-- A symbol as seen by expression evaluation: its type and its current computed
value in string form (for bool/tristate symbols the stored tri-state letter,
before promotion). -/
structure SymInfo where
  type : SType
  val : String
  deriving DecidableEq, Repr

/-- Modelled from the spec: the configuration as seen by the evaluator of
kconfiglib.py (not among the sources): the name-to-symbol index, and the current
value of the designated modules-enabled boolean symbol (spec section 3,
"Configuration"). -/
structure Config where
  syms : List (String × SymInfo)
  modules : Bool

/-- Look a symbol name up in the configuration's index. -/
def lookupSym (cfg : Config) (n : String) : Option SymInfo :=
  (cfg.syms.find? (·.1 == n)).map (·.2)

/-- The tri-state named by a value string. -/
def triOfStr (s : String) : Tri :=
  if s = "y" then .yes else if s = "m" then .mod else .no

/-- The letter form of a tri-state value. -/
def triToStr : Tri → String
  | .yes => "y"
  | .mod => "m"
  | .no => "n"

/-- Modelled from the spec: boolean value of a bare literal (section 4.1): Yes for
the literal y, Module-gated-by-modules for the literal m, No for everything else.
The testsuite pins the m case: with modules disabled it evaluates to No. -/
def constTri (modules : Bool) (s : String) : Tri :=
  if s = "y" then .yes
  else if s = "m" then (if modules then .mod else .no)
  else .no

/-- Boolean (tri-state) value of an atom: a bool/tristate symbol yields its own
promoted value, any other symbol yields No, a literal follows constTri, and an
undefined name is a string constant, hence No as a boolean operand. -/
def atomTri (cfg : Config) : Atom → Tri
  | .qstr s => constTri cfg.modules s
  | .word w =>
    match lookupSym cfg w with
    | some i =>
      match i.type with
      | .bool => promote cfg.modules (triOfStr i.val)
      | .tristate => promote cfg.modules (triOfStr i.val)
      | _ => .no
    | none => constTri cfg.modules w

/-- The kind of a comparison operand: a symbol of a given type, or a constant. -/
inductive OpKind
  | sym (t : SType)
  | const
  deriving DecidableEq, Repr

/-- String form of a symbol's current value as used inside comparisons; promotion
applies to bool/tristate values. -/
def symValStr (cfg : Config) (i : SymInfo) : String :=
  match i.type with
  | .bool => triToStr (promote cfg.modules (triOfStr i.val))
  | .tristate => triToStr (promote cfg.modules (triOfStr i.val))
  | _ => i.val

/-- Modelled from the spec: reduction of a comparison operand (section 4.1).
An undefined name is treated as a string constant equal to its own name
(section 7, error class c). -/
def reduceAtom (cfg : Config) : Atom → OpKind × String
  | .qstr s => (.const, s)
  | .word w =>
    match lookupSym cfg w with
    | some i => (.sym i.type, symValStr cfg i)
    | none => (.const, w)

/-- Operand kinds whose comparison semantics is plain string comparison. -/
def isStringKind : OpKind → Bool
  | .sym .str => true
  | .sym .bool => true
  | .sym .tristate => true
  | _ => false

/-- Operand kinds that are numeric-typed symbols. -/
def isNumKind : OpKind → Bool
  | .sym .int => true
  | .sym .hex => true
  | _ => false

/-- Numeric value of a reduced operand under the type-implied base: decimal for
int symbols, hexadecimal for hex symbols (marker optional), marker-dependent for
constants; string/bool/tristate symbols never parse as numbers. -/
def numValOf : OpKind × String → Option Int
  | (.sym .int, s) => parseDec s
  | (.sym .hex, s) => parseHex s
  | (.const, s) => if hasHexMarker s then parseHex s else parseDec s
  | (_, _) => none

/-- Byte-wise lexicographic strict order on character lists. -/
def charListLt : List Char → List Char → Bool
  | [], [] => false
  | [], _ :: _ => true
  | _ :: _, [] => false
  | a :: as, b :: bs =>
    if a.toNat < b.toNat then true
    else if b.toNat < a.toNat then false
    else charListLt as bs

/-- Byte-wise lexicographic strict order on strings. -/
def strLt (a b : String) : Bool := charListLt a.data b.data

/-- String comparison for each operator (byte-wise lexicographic, spec 4.1). -/
def strCmpB : CmpOp → String → String → Bool
  | .ceq, a, b => a == b
  | .cne, a, b => a != b
  | .clt, a, b => strLt a b
  | .cle, a, b => strLt a b || a == b
  | .cgt, a, b => strLt b a
  | .cge, a, b => strLt b a || a == b

/-- Numeric comparison for each operator. -/
def intCmpB : CmpOp → Int → Int → Bool
  | .ceq, a, b => a == b
  | .cne, a, b => a != b
  | .clt, a, b => decide (a < b)
  | .cle, a, b => decide (a ≤ b)
  | .cgt, a, b => decide (b < a)
  | .cge, a, b => decide (b ≤ a)

/-- Truth value of a boolean as a tri-state. -/
def b2t (b : Bool) : Tri := if b then .yes else .no

/-- Modelled from the spec: polymorphic comparison (section 4.1). If either side
is a string/bool/tristate symbol the comparison is string comparison; otherwise
if both sides parse as numbers under the type-implied base it is numeric;
otherwise, with a numeric-typed symbol on one side, the four relational operators
yield No while equality and inequality fall back to string comparison. -/
def cmpVals (op : CmpOp) (x y : OpKind × String) : Tri :=
  if isStringKind x.1 || isStringKind y.1 then b2t (strCmpB op x.2 y.2)
  else
    match numValOf x, numValOf y with
    | some m, some n => b2t (intCmpB op m n)
    | _, _ =>
      if (isNumKind x.1 || isNumKind y.1) && op.isRel then .no
      else b2t (strCmpB op x.2 y.2)

/-- Comparison of two atoms under the current configuration. -/
def evalCmp (cfg : Config) (op : CmpOp) (a b : Atom) : Tri :=
  cmpVals op (reduceAtom cfg a) (reduceAtom cfg b)

/-- Modelled from the spec: the pure expression evaluator (section 4.2) of
kconfiglib.py, which is not among the sources. -/
def evalE (cfg : Config) : Expr → Tri
  | .atom a => atomTri cfg a
  | .cmp op a b => evalCmp cfg op a b
  | .not e => triNot (evalE cfg e)
  | .and l r => triAnd (evalE cfg l) (evalE cfg r)
  | .or l r => triOr (evalE cfg l) (evalE cfg r)

/-- Modelled from the spec: Config.eval of kconfiglib.py (not among the sources),
the ad-hoc query that tokenizes, parses and evaluates an expression string
against current symbol values; malformed input is a syntax error. -/
def eval (cfg : Config) (s : String) : Except String Tri :=
  match tokenize s with
  | .error e => .error e
  | .ok ts =>
    match parseTop ts with
    | .error e => .error e
    | .ok e => .ok (evalE cfg e)

/-- Successful evaluation result, if any. -/
def evalOk (cfg : Config) (s : String) : Option Tri :=
  match eval cfg s with
  | .ok t => some t
  | .error _ => none

/-- Whether a computation ended in a syntax error. -/
def isErr {α : Type} : Except String α → Bool
  | .error _ => true
  | .ok _ => false

/-- Successfully produced token list, if any. -/
def tokensOf (s : String) : Option (List Token) :=
  match tokenize s with
  | .ok ts => some ts
  | .error _ => none

/-- The symbols of the Keval test fixture that the evaluation claims exercise. -/
def kevalSyms : List (String × SymInfo) :=
  [("M", ⟨.tristate, "m"⟩), ("Y_STRING", ⟨.str, "y"⟩), ("INT_37", ⟨.int, "37"⟩),
   ("HEX_0X37", ⟨.hex, "0x37"⟩), ("HEX_37", ⟨.hex, "37"⟩)]

/-- The Keval fixture with modules disabled. -/
def cKeval : Config := ⟨kevalSyms, false⟩

/-- The Keval fixture with modules enabled. -/
def cKevalMod : Config := ⟨kevalSyms, true⟩

/-- Modelled from the spec: an int/hex symbol as seen by computed-value
calculation (section 4.3) in kconfiglib.py, which is not among the sources: an
optional user value, the ordered conditional defaults and the ordered conditional
ranges, each with the current truth of its gating expression. -/
structure NumSym where
  user : Option Int
  defaults : List (Int × Bool)
  ranges : List (Int × Int × Bool)
  deriving DecidableEq, Repr

/-- Value of the first default whose gating expression is true. -/
def firstDefault (ds : List (Int × Bool)) : Option Int :=
  (ds.find? (·.2)).map (·.1)

/-- The first range whose gating expression is true, as a (low, high) pair. -/
def firstActiveRange (rs : List (Int × Int × Bool)) : Option (Int × Int) :=
  (rs.find? (·.2.2)).map (fun r => (r.1, r.2.1))

/-- Modelled from the spec: the default an int/hex symbol resolves to (section
4.3): the first default whose gate is true, clamped to the active range bound it
violates; with no matching default, the low bound of the active range when that
bound is strictly positive, else unset. The testsuite pins the strictly-positive
condition: a range with low bound -10 and no default leaves the symbol unset. -/
def resolvedDefault (ds : List (Int × Bool)) (act : Option (Int × Int)) : Option Int :=
  match firstDefault ds with
  | some d =>
    match act with
    | some (lo, hi) => some (if d < lo then lo else if hi < d then hi else d)
    | none => some d
  | none =>
    match act with
    | some (lo, _) => if 0 < lo then some lo else none
    | none => none

/-- Modelled from the spec: computed value of an int/hex symbol (section 4.3): a
user value inside the active range wins; a user value outside it is treated as
absent and the resolved default is recomputed; with no user value the resolved
default applies. -/
def calcValue (s : NumSym) : Option Int :=
  match s.user with
  | some u =>
    match firstActiveRange s.ranges with
    | some (lo, hi) =>
      if lo ≤ u ∧ u ≤ hi then some u
      else resolvedDefault s.defaults (firstActiveRange s.ranges)
    | none => some u
  | none => resolvedDefault s.defaults (firstActiveRange s.ranges)

/-- String form of a computed numeric value; an unset symbol has the empty string. -/
def valueString (v : Option Int) : String :=
  match v with
  | some n => toString n
  | none => ""

/-- Whether a string is a valid decimal integer literal. -/
def isDecString (s : String) : Bool :=
  match s.data with
  | '-' :: cs => !cs.isEmpty && cs.all (·.isDigit)
  | cs => !cs.isEmpty && cs.all (·.isDigit)

/-- Whether a character is a hexadecimal digit. -/
def isHexDigitC (c : Char) : Bool :=
  c.isDigit || (decide ('a' ≤ c) && decide (c ≤ 'f')) || (decide ('A' ≤ c) && decide (c ≤ 'F'))

/-- Whether a string is a valid hexadecimal literal (0x/0X marker optional). -/
def isHexString (s : String) : Bool :=
  let cs := stripHexMarker s.data
  !cs.isEmpty && cs.all isHexDigitC

/-- Modelled from the spec: which value strings are valid user values for each
symbol type (section 7, error class b); the testsuite pins that a bool symbol
rejects the value m. -/
def validUserValue : SType → String → Bool
  | .bool, s => s == "n" || s == "y"
  | .tristate, s => s == "n" || s == "m" || s == "y"
  | .str, _ => true
  | .int, s => isDecString s
  | .hex, s => isHexString s

/-- Modelled from the spec: Symbol.set_user_value of kconfiglib.py (not among the
sources): an invalid value for the symbol's type is rejected and the prior user
value, or its absence, is retained unchanged; no exception is raised (section 7,
error class b). -/
def set_user_value (t : SType) (old : Option String) (v : String) : Option String :=
  if validUserValue t v then some v else old

/-- Whether the persistence codec escapes this character in a string value. -/
def escChar (c : Char) : Bool := c == '\\' || c == '"'

/-- Modelled from the spec: the escaping the persistence writer applies to a
string symbol value (section 4.5): every literal backslash and every double-quote
character is backslash-prefixed before quoting. -/
def escapeVal : List Char → List Char
  | [] => []
  | c :: cs =>
    if escChar c then '\\' :: c :: escapeVal cs
    else c :: escapeVal cs

/-- Modelled from the spec: the persistence reader's double-quoted value lexer
(section 4.5), with backslash-backslash and backslash-quote as the only
recognized escapes; returns the value text and the remaining input, or fails on
an unterminated quote. -/
def readConfigQuoted : List Char → Option (List Char × List Char)
  | [] => none
  | c :: cs =>
    if c = '"' then some ([], cs)
    else if c = '\\' then
      match cs with
      | [] => none
      | c2 :: cs2 =>
        if escChar c2 then (readConfigQuoted cs2).map (fun p => (c2 :: p.1, p.2))
        else (readConfigQuoted cs2).map (fun p => (c :: c2 :: p.1, p.2))
    else (readConfigQuoted cs).map (fun p => (c :: p.1, p.2))

/-- The quoted, escaped on-disk form of a string symbol value. -/
def writeValue (s : String) : String :=
  "\"" ++ String.mk (escapeVal s.data) ++ "\""

/-- Parse a whole double-quoted value back from its on-disk form. -/
def readValue (s : String) : Option String :=
  match s.data with
  | '"' :: cs =>
    match readConfigQuoted cs with
    | some (content, []) => some (String.mk content)
    | _ => none
  | _ => none

/-- First assignment to a name in a persisted-assignment file's line list. -/
def lookupA (asgns : List (String × String)) (n : String) : Option String :=
  (asgns.find? (·.1 == n)).map (·.2)

/-- Modelled from the spec: Config.load_config of kconfiglib.py (not among the
sources), acting on the map of user values (section 4.5): replace mode first
clears every user value and then applies the file, merge mode only applies values
found in the file. -/
def load_config (asgns : List (String × String)) (replace : Bool)
    (user : String → Option String) : String → Option String :=
  fun n =>
    match lookupA asgns n with
    | some v => some v
    | none => if replace then none else user n

/-- Bool symbols promote a Module bound to Yes. -/
def bpromote : Tri → Tri
  | .mod => .yes
  | t => t

/-- Modelled from the spec: a symbol as seen by the bounds queries of
kconfiglib.py (not among the sources): its type, whether it is one of the special
build-time symbols, its computed visibility and the strongest value forced on it
by selects (the reverse-dependency value). -/
structure BSym where
  type : SType
  special : Bool
  vis : Tri
  rev : Tri
  deriving DecidableEq, Repr

/-- Visibility ceiling used by the bounds queries; bool symbols promote m to y. -/
def bVis (s : BSym) : Tri := if s.type = .bool then bpromote s.vis else s.vis

/-- Select-forced floor used by the bounds queries; bool symbols promote m to y. -/
def bRev (s : BSym) : Tri := if s.type = .bool then bpromote s.rev else s.rev

/-- Whether a type is bool or tristate. -/
def isBoolTri (t : SType) : Bool := t == .bool || t == .tristate

/-- A symbol has bounds when it is a non-special bool/tristate symbol whose
select-forced floor lies strictly below its visibility ceiling. -/
def bEligible (s : BSym) : Bool :=
  !s.special && isBoolTri s.type && decide ((bRev s).toNat < (bVis s).toNat)

/-- Modelled from the spec: Symbol.get_lower_bound of kconfiglib.py (not among
the sources): the lowest tri-state value the user can assign with effect. -/
def get_lower_bound (s : BSym) : Option Tri :=
  if bEligible s then some (bRev s) else none

/-- Modelled from the spec: Symbol.get_upper_bound of kconfiglib.py (not among
the sources): the highest tri-state value the user can assign with effect. -/
def get_upper_bound (s : BSym) : Option Tri :=
  if bEligible s then some (bVis s) else none

/-- Modelled from the spec: Symbol.get_assignable_values of kconfiglib.py (not
among the sources): the contiguous run of tri-state letters the user can assign
with effect, empty when the symbol has no bounds. -/
def get_assignable_values (s : BSym) : List String :=
  if bEligible s then
    (["n", "m", "y"].drop (bRev s).toNat).take ((bVis s).toNat + 1 - (bRev s).toNat)
  else []

/-- Modelled from the spec: Symbol.is_modifiable of kconfiglib.py (not among the
sources): whether assigning a user value could have any effect; for bool/tristate
symbols the floor must lie strictly below the ceiling, for other types the symbol
must be visible. -/
def is_modifiable (s : BSym) : Bool :=
  if s.special then false
  else if isBoolTri s.type then decide ((bRev s).toNat < (bVis s).toNat)
  else decide (bVis s ≠ .no)

/-- The contiguous slice of the tri-state letters between two bounds, inclusive. -/
def boundSlice : Option Tri → Option Tri → List String
  | some lo, some hi => (["n", "m", "y"].drop lo.toNat).take (hi.toNat + 1 - lo.toNat)
  | _, _ => []

/-- Modelled from the spec: the location bookkeeping of a symbol in
kconfiglib.py (not among the sources): its name, whether it is special, whether
its value comes from the environment, whether it is defined, and the recorded
definition and reference locations (spec section 3, "Symbol"). -/
structure LocSym where
  name : String
  special : Bool
  fromEnv : Bool
  defined : Bool
  defLocs : List Nat
  refLocs : List Nat
  deriving DecidableEq, Repr

/-- A front-end event: a symbol definition or a symbol reference at a location. -/
inductive Event
  | define (name : String) (loc : Nat)
  | ref (name : String) (loc : Nat)
  deriving DecidableEq, Repr

/-- A built-in special symbol: defined, with no recorded locations (spec section
3 invariant on the reserved constants). -/
def constSym (n : String) : LocSym := ⟨n, true, false, true, [], []⟩

/-- An environment-sourced special symbol: defined at the location of the line
that binds it to the environment variable. -/
def envSym (p : String × Nat) : LocSym := ⟨p.1, true, true, true, [p.2], []⟩

/-- The symbol table before the front end processes the description source: the
three reserved constants, further build-time special symbols, and the
environment-sourced special symbols. -/
def initTable (specials : List String) (envs : List (String × Nat)) : List LocSym :=
  (["n", "m", "y"] ++ specials).map constSym ++ envs.map envSym

/-- Whether a name already has a table entry. -/
def hasSym (tbl : List LocSym) (n : String) : Bool := tbl.any (·.name == n)

/-- Modelled from the spec: how the front end grows the symbol table (section 6,
input graph contract): a definition marks the symbol defined and records a
definition location (special symbols are immutable and left untouched); a
reference records a reference location, creating an undefined entry when the
name is new. -/
def applyEvent (tbl : List LocSym) : Event → List LocSym
  | .define n loc =>
    if hasSym tbl n then
      tbl.map (fun s =>
        if s.name == n && !s.special then
          { s with defined := true, defLocs := s.defLocs ++ [loc] }
        else s)
    else tbl ++ [⟨n, false, false, true, [loc], []⟩]
  | .ref n loc =>
    if hasSym tbl n then
      tbl.map (fun s => if s.name == n then { s with refLocs := s.refLocs ++ [loc] } else s)
    else tbl ++ [⟨n, false, false, false, [], [loc]⟩]

/-- The symbol table of a loaded configuration, as built by the front end. -/
def mkTable (specials : List String) (envs : List (String × Nat)) (events : List Event) : List LocSym :=
  events.foldl applyEvent (initTable specials envs)

/-- The location sanity invariant the testsuite checks for every symbol: a
special non-environment symbol is defined with no definition locations, an
environment-sourced symbol has definition locations, a non-special symbol has
definition locations exactly when it is defined, and a non-special undefined
symbol has reference locations. -/
def locInv (s : LocSym) : Prop :=
  (s.special = true → s.fromEnv = false → s.defined = true ∧ s.defLocs = []) ∧
  (s.special = true → s.fromEnv = true → s.defLocs ≠ []) ∧
  (s.special = false → (s.defLocs ≠ [] ↔ s.defined = true)) ∧
  (s.special = false → s.defined = false → s.refLocs ≠ [])

theorem b2t_ne_mod (b : Bool) : b2t b ≠ .mod := by
  cases b <;> decide

theorem triNot_ne_mod (t : Tri) : triNot t ≠ .mod := by
  cases t <;> decide

theorem promote_false_ne_mod (t : Tri) : promote false t ≠ .mod := by
  cases t <;> decide

theorem constTri_false_ne_mod (s : String) : constTri false s ≠ .mod := by
  unfold constTri
  split_ifs <;> simp_all

theorem triAnd_ne_mod {a b : Tri} (ha : a ≠ .mod) (hb : b ≠ .mod) : triAnd a b ≠ .mod := by
  unfold triAnd
  split <;> assumption

theorem triOr_ne_mod {a b : Tri} (ha : a ≠ .mod) (hb : b ≠ .mod) : triOr a b ≠ .mod := by
  unfold triOr
  split <;> assumption

theorem cmpVals_ne_mod (op : CmpOp) (x y : OpKind × String) : cmpVals op x y ≠ .mod := by
  unfold cmpVals
  split
  · exact b2t_ne_mod _
  · split
    · exact b2t_ne_mod _
    · split
      · decide
      · exact b2t_ne_mod _

theorem atomTri_ne_mod (cfg : Config) (h : cfg.modules = false) (a : Atom) :
    atomTri cfg a ≠ .mod := by
  cases a with
  | qstr s =>
    simp only [atomTri, h]
    exact constTri_false_ne_mod s
  | word w =>
    simp only [atomTri]
    cases hl : lookupSym cfg w with
    | none =>
      simp only [h]
      exact constTri_false_ne_mod w
    | some i =>
      cases ht : i.type <;> simp only [ht, h] <;> first
        | exact promote_false_ne_mod _
        | decide

theorem evalE_ne_mod (cfg : Config) (h : cfg.modules = false) : ∀ e, evalE cfg e ≠ .mod := by
  intro e
  induction e with
  | atom a => exact atomTri_ne_mod cfg h a
  | cmp op a b => exact cmpVals_ne_mod op _ _
  | not e ih => exact triNot_ne_mod _
  | and l r ihl ihr => exact triAnd_ne_mod ihl ihr
  | or l r ihl ihr => exact triOr_ne_mod ihl ihr

theorem eval_ok_evalE {cfg : Config} {s : String} {t : Tri} (he : eval cfg s = .ok t) :
    ∃ e, evalE cfg e = t := by
  unfold eval at he
  split at he
  · exact Except.noConfusion he
  · split at he
    · exact Except.noConfusion he
    · rename_i e he2
      exact ⟨e, Except.ok.inj he⟩

theorem evalOk_no_mod (cfg : Config) (s : String) (t : Tri) (h : cfg.modules = false)
    (he : evalOk cfg s = some t) : t ≠ .mod := by
  unfold evalOk at he
  split at he
  · rename_i t2 he2
    obtain rfl : t2 = t := Option.some.inj he
    obtain ⟨e, hev⟩ := eval_ok_evalE he2
    rw [← hev]
    exact evalE_ne_mod cfg h e
  · exact Option.noConfusion he

/-- C1: promotion in expression evaluation - whenever the designated
modules-enabled symbol evaluates to No, no evaluated expression string yields
Module (every such result is promoted); concretely, with modules disabled,
eval "y" is Yes, eval "m" is No and the tristate symbol M holding Module
evaluates to Yes, while with modules enabled eval "m" is Module and
eval "(y||n)&&(m&&y)" is Module. -/
theorem c1_promotion_eval :
    (∀ (cfg : Config) (s : String) (t : Tri),
       cfg.modules = false → evalOk cfg s = some t → t ≠ .mod) ∧
    evalOk cKeval "y" = some .yes ∧
    evalOk cKeval "m" = some .no ∧
    evalOk cKeval "M" = some .yes ∧
    evalOk cKevalMod "m" = some .mod ∧
    evalOk cKevalMod "(y||n)&&(m&&y)" = some .mod :=
  ⟨fun cfg s t h he => evalOk_no_mod cfg s t h he,
   by decide, by decide, by decide, by decide, by decide⟩

/-- Witness for C1 at a concrete input: the Keval fixture with modules disabled
evaluates the symbol M, and the result Yes is indeed not Module. -/
theorem c1_promotion_eval_witness :
    cKeval.modules = false ∧ evalOk cKeval "M" = some .yes ∧ Tri.yes ≠ Tri.mod :=
  ⟨rfl, by decide, c1_promotion_eval.1 cKeval "M" .yes rfl (by decide)⟩

theorem numValOf_some_not_string {x : OpKind × String} {m : Int} (h : numValOf x = some m) :
    isStringKind x.1 = false := by
  obtain ⟨k, s⟩ := x
  cases k with
  | const => rfl
  | sym t => cases t <;> simp_all [numValOf, isStringKind]

theorem isNumKind_not_string {k : OpKind} (h : isNumKind k = true) :
    isStringKind k = false := by
  cases k with
  | const => rfl
  | sym t => cases t <;> simp_all [isNumKind, isStringKind]

theorem cmpVals_num (op : CmpOp) (x y : OpKind × String) (m n : Int)
    (hx : numValOf x = some m) (hy : numValOf y = some n) :
    cmpVals op x y = b2t (intCmpB op m n) := by
  unfold cmpVals
  rw [numValOf_some_not_string hx, numValOf_some_not_string hy]
  simp [hx, hy]

/-- C3: comparisons whose two operands both parse as numbers under the
type-implied base are decided numerically, independent of textual padding and of
the bases mixed across the two sides; concretely INT_37 = 37, INT_37 < 38,
INT_37 < 0x26, HEX_0X37 = '0x037', HEX_0X37 = '0x0037', HEX_0X37 >= 0x36 and
HEX_0X37 < 56 all evaluate to Yes. -/
theorem c3_numeric_comparison :
    (∀ (cfg : Config) (op : CmpOp) (a b : Atom) (m n : Int),
      numValOf (reduceAtom cfg a) = some m → numValOf (reduceAtom cfg b) = some n →
      evalE cfg (.cmp op a b) = b2t (intCmpB op m n)) ∧
    evalOk cKeval "INT_37 = 37" = some .yes ∧
    evalOk cKeval "INT_37 < 38" = some .yes ∧
    evalOk cKeval "INT_37 < 0x26" = some .yes ∧
    evalOk cKeval "HEX_0X37 = '0x037'" = some .yes ∧
    evalOk cKeval "HEX_0X37 = '0x0037'" = some .yes ∧
    evalOk cKeval "HEX_0X37 >= 0x36" = some .yes ∧
    evalOk cKeval "HEX_0X37 < 56" = some .yes :=
  ⟨fun cfg op a b m n hx hy => cmpVals_num op _ _ m n hx hy,
   by decide, by decide, by decide, by decide, by decide, by decide, by decide⟩

/-- Witness for C3 at a concrete input: the int symbol INT_37 compared for
equality against the hex literal 0x25, both parsing to the number 37. -/
theorem c3_numeric_comparison_witness :
    numValOf (reduceAtom cKeval (.word "INT_37")) = some 37 ∧
    numValOf (reduceAtom cKeval (.qstr "0x25")) = some 37 ∧
    evalE cKeval (.cmp .ceq (.word "INT_37") (.qstr "0x25")) = b2t (intCmpB .ceq 37 37) :=
  ⟨by decide, by decide,
   c3_numeric_comparison.1 cKeval .ceq (.word "INT_37") (.qstr "0x25") 37 37
     (by decide) (by decide)⟩

theorem cmpVals_rel_no (op : CmpOp) (x y : OpKind × String) (hop : op.isRel = true)
    (hx : isNumKind x.1 = true) (hystr : isStringKind y.1 = false)
    (hy : numValOf y = none) : cmpVals op x y = .no ∧ cmpVals op y x = .no := by
  constructor
  · unfold cmpVals
    rw [isNumKind_not_string hx, hystr]
    cases hxv : numValOf x <;> simp [hxv, hy, hx, hop]
  · unfold cmpVals
    rw [isNumKind_not_string hx, hystr]
    cases hxv : numValOf x <;> simp [hxv, hy, hx, hop]

theorem cmpVals_eq_fallback (x y : OpKind × String)
    (hx : isNumKind x.1 = true) (hystr : isStringKind y.1 = false)
    (hy : numValOf y = none) :
    cmpVals .ceq x y = b2t (strCmpB .ceq x.2 y.2) ∧
    cmpVals .cne x y = b2t (strCmpB .cne x.2 y.2) := by
  constructor <;>
  · unfold cmpVals
    rw [isNumKind_not_string hx, hystr]
    cases hxv : numValOf x <;> simp [hxv, hy, CmpOp.isRel]

/-- C4: a relational comparison between an int/hex-typed symbol and an operand
that does not parse as a number in the type-implied base yields No on either
side order; equality and inequality instead fall back to string comparison;
concretely every ordering of INT_37 against the undefined word oops is No. -/
theorem c4_relational_nonnumeric :
    (∀ (cfg : Config) (op : CmpOp) (a b : Atom),
      op.isRel = true →
      isNumKind (reduceAtom cfg a).1 = true →
      isStringKind (reduceAtom cfg b).1 = false →
      numValOf (reduceAtom cfg b) = none →
      evalE cfg (.cmp op a b) = .no ∧ evalE cfg (.cmp op b a) = .no) ∧
    (∀ (cfg : Config) (a b : Atom),
      isNumKind (reduceAtom cfg a).1 = true →
      isStringKind (reduceAtom cfg b).1 = false →
      numValOf (reduceAtom cfg b) = none →
      evalE cfg (.cmp .ceq a b) = b2t (strCmpB .ceq (reduceAtom cfg a).2 (reduceAtom cfg b).2) ∧
      evalE cfg (.cmp .cne a b) = b2t (strCmpB .cne (reduceAtom cfg a).2 (reduceAtom cfg b).2)) ∧
    evalOk cKeval "INT_37 < oops" = some .no ∧
    evalOk cKeval "INT_37 <= oops" = some .no ∧
    evalOk cKeval "INT_37 > oops" = some .no ∧
    evalOk cKeval "INT_37 >= oops" = some .no ∧
    evalOk cKeval "oops < INT_37" = some .no ∧
    evalOk cKeval "oops <= INT_37" = some .no ∧
    evalOk cKeval "oops > INT_37" = some .no ∧
    evalOk cKeval "oops >= INT_37" = some .no :=
  ⟨fun cfg op a b hop hx hystr hy => cmpVals_rel_no op _ _ hop hx hystr hy,
   fun cfg a b hx hystr hy => cmpVals_eq_fallback _ _ hx hystr hy,
   by decide, by decide, by decide, by decide, by decide, by decide, by decide, by decide⟩

/-- Witness for C4 at a concrete input: INT_37 relationally compared against the
non-numeric word oops, in both orders. -/
theorem c4_relational_nonnumeric_witness :
    evalE cKeval (.cmp .clt (.word "INT_37") (.word "oops")) = .no ∧
    evalE cKeval (.cmp .clt (.word "oops") (.word "INT_37")) = .no :=
  c4_relational_nonnumeric.1 cKeval .clt (.word "INT_37") (.word "oops")
    (by decide) (by decide) (by decide) (by decide)

/-- C7: a name that is not a defined symbol is treated, in evaluated
expressions, as a symbol whose value is its own name as a string constant;
concretely eval "'not_defined' = not_defined", eval
"not_defined_2 = not_defined_2" and eval "not_defined_1 != not_defined_2" all
return Yes with no error raised. -/
theorem c7_undefined_symbols :
    (∀ (cfg : Config) (w : String), lookupSym cfg w = none →
      reduceAtom cfg (.word w) = (OpKind.const, w) ∧
      evalE cfg (.cmp .ceq (.qstr w) (.word w)) = .yes) ∧
    evalOk cKeval "'not_defined' = not_defined" = some .yes ∧
    evalOk cKeval "not_defined_2 = not_defined_2" = some .yes ∧
    evalOk cKeval "not_defined_1 != not_defined_2" = some .yes := by
  refine ⟨fun cfg w h => ⟨by simp [reduceAtom, h], ?_⟩, by decide, by decide, by decide⟩
  simp only [evalE, evalCmp, reduceAtom, h]
  unfold cmpVals
  cases hn : numValOf (OpKind.const, w) with
  | some m => simp [hn, isStringKind, intCmpB, b2t]
  | none => simp [hn, isStringKind, isNumKind, strCmpB, CmpOp.isRel, b2t]

/-- Witness for C7 at a concrete input: the word oops is undefined in the Keval
fixture and compares equal to its own quoted name. -/
theorem c7_undefined_symbols_witness :
    reduceAtom cKeval (.word "oops") = (OpKind.const, "oops") ∧
    evalE cKeval (.cmp .ceq (.qstr "oops") (.word "oops")) = .yes :=
  c7_undefined_symbols.1 cKeval "oops" (by decide)

theorem readQuoted_cons (q c : Char) (cs : List Char) :
    readQuoted q (c :: cs) =
      if c = q then .ok ([], cs)
      else if c = '\\' then
        match cs with
        | [] => .error "trailing backslash"
        | e :: cs2 => (readQuoted q cs2).map (fun p => (e :: p.1, p.2))
      else (readQuoted q cs).map (fun p => (c :: p.1, p.2)) := by
  conv_lhs => rw [readQuoted.eq_def]

theorem isErr_map {α β : Type} (e : Except String α) (f : α → β) :
    isErr (e.map f) = isErr e := by
  cases e <;> rfl

theorem readQuoted_no_close (q : Char) :
    ∀ (n : Nat) (cs : List Char), cs.length ≤ n → q ∉ cs → isErr (readQuoted q cs) = true := by
  intro n
  induction n with
  | zero =>
    intro cs hlen hq
    have h0 : cs = [] := List.eq_nil_of_length_eq_zero (Nat.le_zero.mp hlen)
    subst h0
    rfl
  | succ n ih =>
    intro cs hlen hq
    cases cs with
    | nil => rfl
    | cons c cs1 =>
      simp only [List.mem_cons, not_or] at hq
      obtain ⟨hq1, hq2⟩ := hq
      rw [readQuoted_cons, if_neg (fun h => hq1 h.symm)]
      by_cases hb : c = '\\'
      · rw [if_pos hb]
        cases cs1 with
        | nil => rfl
        | cons e cs2 =>
          rw [isErr_map]
          apply ih
          · simp only [List.length_cons] at hlen ⊢
            omega
          · intro hmem
            exact hq2 (List.mem_cons_of_mem _ hmem)
      · rw [if_neg hb, isErr_map]
        apply ih
        · simp only [List.length_cons] at hlen ⊢
          omega
        · exact hq2

/-- C5: the quoted-string tokenizer accepts a backslash escape of the backslash
and of the closing quote character, passes the opposite quote character through
unescaped, and fails with a syntax error, rather than returning a token, on
every unterminated quote and on every quoted token ending in a trailing
backslash with nothing to escape. -/
theorem c5_quoted_lexing :
    (∀ (q : Char), q = '"' ∨ q = '\'' →
      (∀ (c : Char) (rest : List Char), c = '\\' ∨ c = q →
        readQuoted q ('\\' :: c :: rest) = (readQuoted q rest).map (fun p => (c :: p.1, p.2))) ∧
      (∀ (q2 : Char) (rest : List Char), (q2 = '"' ∨ q2 = '\'') → q2 ≠ q →
        readQuoted q (q2 :: rest) = (readQuoted q rest).map (fun p => (q2 :: p.1, p.2))) ∧
      (∀ cs : List Char, q ∉ cs → isErr (readQuoted q cs) = true) ∧
      (∀ cs : List Char, q ∉ cs → isErr (readQuoted q (cs ++ ['\\'])) = true)) ∧
    tokensOf "\"a\\\"b\"" = some [Token.str "a\"b"] ∧
    tokensOf "'a\\'b'" = some [Token.str "a'b"] ∧
    isErr (tokenize "\"foo") = true ∧
    isErr (tokenize "\"foo\\") = true ∧
    isErr (tokenize "'foo") = true := by
  refine ⟨fun q hq => ⟨?_, ?_, ?_, ?_⟩, by decide, by decide, by decide, by decide, by decide⟩
  · intro c rest hc
    have hbq : ('\\' : Char) ≠ q := by
      rcases hq with h | h <;> subst h <;> decide
    rw [readQuoted_cons, if_neg hbq, if_pos rfl]
  · intro q2 rest hq2 hne
    have h2 : q2 ≠ '\\' := by
      rcases hq2 with h | h <;> subst h <;> decide
    rw [readQuoted_cons, if_neg hne, if_neg h2]
  · intro cs hcs
    exact readQuoted_no_close q cs.length cs le_rfl hcs
  · intro cs hcs
    have hq' : q ∉ cs ++ ['\\'] := by
      intro hm
      rcases List.mem_append.mp hm with h | h
      · exact hcs h
      · have hqb : q = '\\' := by simpa using h
        rcases hq with h2 | h2 <;> rw [h2] at hqb <;> exact absurd hqb (by decide)
    exact readQuoted_no_close q (cs ++ ['\\']).length (cs ++ ['\\']) le_rfl hq'

/-- Witness for C5 at a concrete input: inside a double quote, an escaped double
quote is accepted into the token text, and the unterminated body foo fails. -/
theorem c5_quoted_lexing_witness :
    readQuoted '"' ('\\' :: '"' :: ['b', '"']) =
      (readQuoted '"' ['b', '"']).map (fun p => ('"' :: p.1, p.2)) ∧
    isErr (readQuoted '"' ['f', 'o', 'o']) = true :=
  ⟨(c5_quoted_lexing.1 '"' (Or.inl rfl)).1 '"' ['b', '"'] (Or.inr rfl),
   (c5_quoted_lexing.1 '"' (Or.inl rfl)).2.2.1 ['f', 'o', 'o'] (by decide)⟩

/-- C2 counterexample: with an active range whose low bound is -10 (non-zero)
and no default and no user value, the computed value is the empty string, not
the low bound, refuting the claim's non-zero condition at a concrete input. -/
theorem c2_range_clamping_counterexample :
    firstActiveRange [((-10 : Int), (10 : Int), true)] = some (-10, 10) ∧
    ((-10 : Int) ≠ 0) ∧
    calcValue ⟨none, [], [((-10 : Int), (10 : Int), true)]⟩ = none ∧
    calcValue ⟨none, [], [((-10 : Int), (10 : Int), true)]⟩ ≠ some (-10) ∧
    valueString (calcValue ⟨none, [], [((-10 : Int), (10 : Int), true)]⟩) = "" :=
  ⟨by decide, by decide, by decide, by decide, by decide⟩

/-- C2 (amended): for the first range with a true gate [low, high] of an int/hex
symbol, a default outside the range is replaced in the computed value by the
bound it violates; a user value outside the range makes the computed value fall
back to the resolved default; and with no default and no user value the computed
value becomes the low bound only if that bound is strictly positive, otherwise
the symbol is left unset with the empty string as value. -/
theorem c2_range_clamping :
    (∀ (ds : List (Int × Bool)) (rs : List (Int × Int × Bool)) (d lo hi : Int),
      firstActiveRange rs = some (lo, hi) → firstDefault ds = some d → lo ≤ hi →
      (d < lo → calcValue ⟨none, ds, rs⟩ = some lo) ∧
      (hi < d → calcValue ⟨none, ds, rs⟩ = some hi)) ∧
    (∀ (u : Int) (ds : List (Int × Bool)) (rs : List (Int × Int × Bool)) (lo hi : Int),
      firstActiveRange rs = some (lo, hi) → (u < lo ∨ hi < u) →
      calcValue ⟨some u, ds, rs⟩ = resolvedDefault ds (firstActiveRange rs)) ∧
    (∀ (ds : List (Int × Bool)) (rs : List (Int × Int × Bool)) (lo hi : Int),
      firstActiveRange rs = some (lo, hi) → firstDefault ds = none →
      calcValue ⟨none, ds, rs⟩ = (if 0 < lo then some lo else none)) ∧
    valueString (calcValue ⟨none, [], [((10 : Int), (20 : Int), true)]⟩) = "10" ∧
    valueString (calcValue ⟨none, [], [((0 : Int), (10 : Int), true)]⟩) = "" := by
  refine ⟨?_, ?_, ?_, by decide, by decide⟩
  · intro ds rs d lo hi hr hd hlohi
    constructor
    · intro hdlo
      simp only [calcValue]
      unfold resolvedDefault
      rw [hd, hr]
      simp [hdlo]
    · intro hhid
      have hnl : ¬(d < lo) := by omega
      simp only [calcValue]
      unfold resolvedDefault
      rw [hd, hr]
      simp [hnl, hhid]
  · intro u ds rs lo hi hr hout
    have hnot : ¬(lo ≤ u ∧ u ≤ hi) := by omega
    simp only [calcValue]
    rw [hr]
    simp [hnot]
  · intro ds rs lo hi hr hd
    simp only [calcValue]
    unfold resolvedDefault
    rw [hd, hr]

/-- Witness for C2 at concrete inputs: with range [10, 20], no default and no
user value the computed value is the low bound 10, and a user value 9 below the
range falls back to the resolved default. -/
theorem c2_range_clamping_witness :
    calcValue ⟨none, [], [((10 : Int), (20 : Int), true)]⟩ =
      (if (0 : Int) < 10 then some 10 else none) ∧
    calcValue ⟨some 9, [((15 : Int), true)], [((10 : Int), (20 : Int), true)]⟩ =
      resolvedDefault [((15 : Int), true)] (firstActiveRange [((10 : Int), (20 : Int), true)]) :=
  ⟨c2_range_clamping.2.2.1 [] [((10 : Int), (20 : Int), true)] 10 20 (by decide) (by decide),
   c2_range_clamping.2.1 9 [((15 : Int), true)] [((10 : Int), (20 : Int), true)] 10 20
     (by decide) (Or.inl (by decide))⟩

/-- C6: assigning a user value that is invalid for the symbol's type is rejected
and leaves the previously stored user value, or its absence, unchanged, without
raising an exception (set_user_value is a total function); concretely m, foo and
1 are rejected by a bool symbol, foo and 1 by a tristate symbol, and foo by int
and hex symbols. -/
theorem c6_invalid_user_value :
    (∀ (t : SType) (old : Option String) (v : String),
      validUserValue t v = false → set_user_value t old v = old) ∧
    set_user_value .bool (some "y") "m" = some "y" ∧
    set_user_value .bool (some "y") "foo" = some "y" ∧
    set_user_value .bool (some "y") "1" = some "y" ∧
    set_user_value .tristate (some "y") "foo" = some "y" ∧
    set_user_value .tristate (some "y") "1" = some "y" ∧
    set_user_value .int (some "123") "foo" = some "123" ∧
    set_user_value .hex (some "0x123") "foo" = some "0x123" ∧
    set_user_value .bool none "m" = none := by
  refine ⟨fun t old v h => ?_, by decide, by decide, by decide, by decide, by decide,
    by decide, by decide, by decide⟩
  unfold set_user_value
  rw [h]
  rfl

/-- Witness for C6 at a concrete input: the value m is invalid for a bool symbol
and the stored user value y is retained. -/
theorem c6_invalid_user_value_witness :
    validUserValue .bool "m" = false ∧ set_user_value .bool (some "y") "m" = some "y" :=
  ⟨by decide, c6_invalid_user_value.1 .bool (some "y") "m" (by decide)⟩

theorem readConfigQuoted_cons (c : Char) (cs : List Char) :
    readConfigQuoted (c :: cs) =
      if c = '"' then some ([], cs)
      else if c = '\\' then
        match cs with
        | [] => none
        | c2 :: cs2 =>
          if escChar c2 then (readConfigQuoted cs2).map (fun p => (c2 :: p.1, p.2))
          else (readConfigQuoted cs2).map (fun p => (c :: c2 :: p.1, p.2))
      else (readConfigQuoted cs).map (fun p => (c :: p.1, p.2)) := by
  conv_lhs => rw [readConfigQuoted.eq_def]

theorem readConfigQuoted_escape (v : List Char) :
    ∀ rest, readConfigQuoted (escapeVal v ++ '"' :: rest) = some (v, rest) := by
  induction v with
  | nil =>
    intro rest
    simp only [escapeVal, List.nil_append]
    rw [readConfigQuoted_cons, if_pos rfl]
  | cons c v ih =>
    intro rest
    cases he : escChar c with
    | true =>
      have h1 : escapeVal (c :: v) = '\\' :: c :: escapeVal v := by
        simp [escapeVal, he]
      rw [h1, List.cons_append, List.cons_append, readConfigQuoted_cons,
        if_neg (by decide : ¬(('\\' : Char) = '"')), if_pos rfl]
      simp [he, ih rest]
    | false =>
      have h1 : ¬(c = '\\') := by
        intro h
        subst h
        simp [escChar] at he
      have h2 : ¬(c = '"') := by
        intro h
        subst h
        simp [escChar] at he
      have h3 : escapeVal (c :: v) = c :: escapeVal v := by
        simp [escapeVal, he]
      rw [h3, List.cons_append, readConfigQuoted_cons, if_neg h2, if_neg h1, ih rest]
      rfl

theorem readValue_writeValue (s : String) : readValue (writeValue s) = some s := by
  obtain ⟨cs⟩ := s
  unfold writeValue readValue
  have h : (("\"" : String) ++ String.mk (escapeVal cs) ++ "\"").data
      = '"' :: (escapeVal cs ++ '"' :: []) := by
    simp [String.data_append]
  rw [h]
  simp only [readConfigQuoted_escape]

/-- C8: the persistence codec round trip - writing escapes a string value by
backslash-prefixing every backslash and double quote before quoting, and reading
the written form reproduces the original value exactly; loading with
replace=false leaves every symbol not assigned in the file untouched; loading an
empty file with replace=true clears every user value. -/
theorem c8_config_roundtrip :
    (∀ (v rest : List Char), readConfigQuoted (escapeVal v ++ '"' :: rest) = some (v, rest)) ∧
    (∀ s : String, readValue (writeValue s) = some s) ∧
    (∀ (asgns : List (String × String)) (user : String → Option String) (n : String),
      lookupA asgns n = none → load_config asgns false user n = user n) ∧
    (∀ (user : String → Option String) (n : String),
      load_config ([] : List (String × String)) true user n = none) ∧
    writeValue (String.mk ['"', '\\']) = String.mk ['"', '\\', '"', '\\', '\\', '"'] := by
  refine ⟨fun v rest => readConfigQuoted_escape v rest, readValue_writeValue,
    fun asgns user n h => ?_, fun user n => rfl, by decide⟩
  unfold load_config
  rw [h]
  rfl

/-- Witness for C8 at a concrete input: a merge-mode load of a file assigning
only BOOL leaves the unassigned symbol STRING with its previous user value. -/
theorem c8_config_roundtrip_witness :
    lookupA [("BOOL", "y")] "STRING" = none ∧
    load_config [("BOOL", "y")] false (fun _ => some "foo bar") "STRING" = some "foo bar" :=
  ⟨by decide,
   c8_config_roundtrip.2.2.1 [("BOOL", "y")] (fun _ => some "foo bar") "STRING" (by decide)⟩

/-- C9: the bounds queries agree - when get_lower_bound gives none the
assignable-value list is empty; the assignable-value list always equals the
contiguous slice of the tri-state letters n, m, y from the lower bound to the
upper bound inclusive; and a bool/tristate symbol is modifiable exactly when
get_lower_bound is not none. -/
theorem c9_bounds_consistency :
    ∀ s : BSym,
      (get_lower_bound s = none → get_assignable_values s = []) ∧
      get_assignable_values s = boundSlice (get_lower_bound s) (get_upper_bound s) ∧
      (isBoolTri s.type = true → (is_modifiable s = true ↔ get_lower_bound s ≠ none)) := by
  intro s
  obtain ⟨t, sp, v, r⟩ := s
  cases t <;> cases sp <;> cases v <;> cases r <;>
    exact ⟨by decide, by decide, by decide⟩

/-- Witness for C9 at concrete inputs: a visible tristate symbol selected to
Module has assignable values equal to the slice between its bounds and is
modifiable, and a string symbol, whose lower bound is none, has no assignable
values. -/
theorem c9_bounds_consistency_witness :
    get_assignable_values ⟨.tristate, false, .yes, .mod⟩ =
      boundSlice (get_lower_bound ⟨.tristate, false, .yes, .mod⟩)
        (get_upper_bound ⟨.tristate, false, .yes, .mod⟩) ∧
    (is_modifiable ⟨.tristate, false, .yes, .mod⟩ = true ↔
      get_lower_bound ⟨.tristate, false, .yes, .mod⟩ ≠ none) ∧
    get_assignable_values ⟨.str, false, .yes, .no⟩ = [] :=
  ⟨(c9_bounds_consistency ⟨.tristate, false, .yes, .mod⟩).2.1,
   (c9_bounds_consistency ⟨.tristate, false, .yes, .mod⟩).2.2 (by decide),
   (c9_bounds_consistency ⟨.str, false, .yes, .no⟩).1 (by decide)⟩

theorem locInv_initTable (specials : List String) (envs : List (String × Nat)) :
    ∀ s ∈ initTable specials envs, locInv s := by
  intro s hs
  unfold initTable at hs
  rcases List.mem_append.mp hs with h | h
  · obtain ⟨n, hn, rfl⟩ := List.mem_map.mp h
    simp [locInv, constSym]
  · obtain ⟨p, hp, rfl⟩ := List.mem_map.mp h
    simp [locInv, envSym]

theorem locInv_applyEvent (tbl : List LocSym) (e : Event) (h : ∀ s ∈ tbl, locInv s) :
    ∀ s ∈ applyEvent tbl e, locInv s := by
  intro s hs
  cases e with
  | define n loc =>
    simp only [applyEvent] at hs
    by_cases hh : hasSym tbl n = true
    · rw [if_pos hh] at hs
      obtain ⟨s0, hs0, rfl⟩ := List.mem_map.mp hs
      have h0 := h s0 hs0
      by_cases hc : (s0.name == n && !s0.special) = true
      · rw [if_pos hc]
        have hsp : s0.special = false := by
          rw [Bool.and_eq_true] at hc
          simpa using hc.2
        refine ⟨fun h1 _ => absurd h1 (by simp [hsp]),
          fun h1 _ => absurd h1 (by simp [hsp]),
          fun _ => by simp,
          fun _ h2 => by simp at h2⟩
      · rw [if_neg hc]
        exact h0
    · rw [if_neg hh] at hs
      rcases List.mem_append.mp hs with h1 | h1
      · exact h s h1
      · have hs1 : s = ⟨n, false, false, true, [loc], []⟩ := by simpa using h1
        subst hs1
        simp [locInv]
  | ref n loc =>
    simp only [applyEvent] at hs
    by_cases hh : hasSym tbl n = true
    · rw [if_pos hh] at hs
      obtain ⟨s0, hs0, rfl⟩ := List.mem_map.mp hs
      have h0 := h s0 hs0
      by_cases hc : (s0.name == n) = true
      · rw [if_pos hc]
        exact ⟨h0.1, h0.2.1, h0.2.2.1, fun _ _ => by simp⟩
      · rw [if_neg hc]
        exact h0
    · rw [if_neg hh] at hs
      rcases List.mem_append.mp hs with h1 | h1
      · exact h s h1
      · have hs1 : s = ⟨n, false, false, false, [], [loc]⟩ := by simpa using h1
        subst hs1
        simp [locInv]

theorem locInv_foldl (events : List Event) :
    ∀ (tbl : List LocSym), (∀ s ∈ tbl, locInv s) →
      ∀ s ∈ events.foldl applyEvent tbl, locInv s := by
  induction events with
  | nil => exact fun tbl h s hs => h s hs
  | cons e es ih =>
    intro tbl h s hs
    exact ih (applyEvent tbl e) (locInv_applyEvent tbl e h) s hs

/-- C10: in every loaded configuration, a special non-environment symbol is
defined with an empty definition-location list, an environment-sourced special
symbol has a non-empty definition-location list, a non-special symbol has a
non-empty definition-location list exactly when it is defined, and a non-special
undefined symbol has a non-empty reference-location list. -/
theorem c10_location_invariant :
    ∀ (specials : List String) (envs : List (String × Nat)) (events : List Event)
      (s : LocSym), s ∈ mkTable specials envs events → locInv s :=
  fun specials envs events s hs =>
    locInv_foldl events (initTable specials envs) (locInv_initTable specials envs) s hs

/-- Witness for C10 at a concrete input: in the table built from one definition
and one reference event over one extra special symbol and one environment
symbol, the undefined referenced symbol satisfies the location invariant. -/
theorem c10_location_invariant_witness :
    locInv ⟨"NOT_DEFINED_1", false, false, false, [], [2]⟩ :=
  c10_location_invariant ["UNAME_RELEASE"] [("FROM_ENV", 5)]
    [.define "BOOL" 1, .ref "NOT_DEFINED_1" 2]
    ⟨"NOT_DEFINED_1", false, false, false, [], [2]⟩ (by decide)

end Kconfig
